import Mathlib

/-!
Shallow embedding of the PageRank demo application
(`src/demoapps/pagerank/pagerank.cpp`) from the PowerGraph repository.

Floating-point arithmetic in the source (`float` vertex data, `double`
intermediates) is modelled over the rationals `ℚ`; directed graphs are a
vertex count together with a list of `(source, target)` edge pairs, and
per-vertex state (`rank`, the program member `last_change`) is modelled as
functions from vertex ids.  The synchronous engine round (gather over all
in-edges of each active vertex with start-of-round ranks, then apply, then
scatter) is modelled explicitly.
-/

namespace PageRank

/-- A directed graph: the number of vertices and the edge list.  An edge is a
`(source, target)` pair of vertex ids (`graphlab::distributed_graph` with
empty edge data, as instantiated by `graph_type`). -/
structure Graph where
  numVertices : Nat
  edges : List (Nat × Nat)

/-- `edge.source().num_out_edges()`: the number of edges whose source is `v`. -/
def out_degree (g : Graph) (v : Nat) : Nat :=
  (g.edges.filter (fun e => e.1 == v)).length

/-- The in-edges of vertex `v`: edges whose target is `v`.  These are the
edges the synchronous engine hands to `gather` for `v` (the gather direction
of `ivertex_program` defaults to in-edges). -/
def in_edges (g : Graph) (v : Nat) : List (Nat × Nat) :=
  g.edges.filter (fun e => e.2 == v)

/-- `float RESET_PROB = 0.15;` (pagerank.cpp line 36), modelled exactly as
the rational 15/100. -/
def RESET_PROB : ℚ := 15 / 100

/-- The convergence threshold: the literal `1E-2` compared against
`last_change` in `pagerank::scatter_edges` (line 98). -/
def CONVERGENCE_THRESHOLD : ℚ := 1 / 100

/-- `void init_vertex(graph_type::vertex_type& vertex) { vertex.data() = 1; }`
(line 51): the rank value every vertex is initialised to. -/
def init_vertex : ℚ := 1

/-- `pagerank::gather` (lines 81–85):
`((1.0 - RESET_PROB) / edge.source().num_out_edges()) * edge.source().data()`,
for the edge `e = (source, target)` under the rank assignment `ranks`. -/
def gather (g : Graph) (ranks : Nat → ℚ) (e : Nat × Nat) : ℚ :=
  ((1 - RESET_PROB) / (out_degree g e.1 : ℚ)) * ranks e.1

/-- The sum reduction the synchronous engine performs over the results of
`gather` on every in-edge of `v` (gather_type is `float`, combined with `+=`). -/
def gather_sum (g : Graph) (ranks : Nat → ℚ) (v : Nat) : ℚ :=
  ((in_edges g v).map (gather g ranks)).sum

/-- `pagerank::apply` (lines 88–93), as a pure function of the vertex's
current rank and the gathered total: returns the pair
(new rank, new `last_change`), where
`double newval = total + RESET_PROB;`
`last_change = std::fabs(newval - vertex.data());`
`vertex.data() = newval;`. -/
def applyPR (rank : ℚ) (total : ℚ) : ℚ × ℚ :=
  let newval := total + RESET_PROB
  (newval, |newval - rank|)

/-- `graphlab::edge_dir_type`, restricted to the two values the program
returns from `scatter_edges`. -/
inductive edge_dir_type where
  | OUT_EDGES
  | NO_EDGES
deriving DecidableEq, Repr, BEq

/-- `pagerank::scatter_edges` (lines 96–100):
`if (last_change > 1E-2) return graphlab::OUT_EDGES; else return graphlab::NO_EDGES;`. -/
def scatter_edges (last_change : ℚ) : edge_dir_type :=
  if last_change > CONVERGENCE_THRESHOLD then edge_dir_type.OUT_EDGES
  else edge_dir_type.NO_EDGES

/-- `pagerank::scatter` (lines 103–106): `context.signal(edge.target());` —
the vertex id signalled (made active for the next round) by scattering along
edge `e`.  No vertex data is read or written. -/
def scatter (e : Nat × Nat) : Nat := e.2

/-- The engine-visible state: the rank (`vertex.data()`) of every vertex, the
`last_change` member of each vertex's program instance, and the list of
currently active vertex ids. -/
structure EngineState where
  ranks : Nat → ℚ
  lastChange : Nat → ℚ
  active : List Nat

/-- A single invocation of `pagerank::apply` on vertex `v` with gathered
total `total`, as a transformation of the whole engine state: only `v`'s
rank and `last_change` slots are written. -/
def apply_invoke (s : EngineState) (v : Nat) (total : ℚ) : EngineState where
  ranks := fun u => if u = v then (applyPR (s.ranks v) total).1 else s.ranks u
  lastChange := fun u => if u = v then (applyPR (s.ranks v) total).2 else s.lastChange u
  active := s.active

/-- The synchronous apply phase: every active vertex's gather is computed
from the start-of-round ranks, and `apply` updates every active vertex.
Inactive vertices are untouched. -/
def applyPhase (g : Graph) (s : EngineState) : EngineState where
  ranks := fun v =>
    if v ∈ s.active then (applyPR (s.ranks v) (gather_sum g s.ranks v)).1
    else s.ranks v
  lastChange := fun v =>
    if v ∈ s.active then (applyPR (s.ranks v) (gather_sum g s.ranks v)).2
    else s.lastChange v
  active := s.active

/-- The synchronous scatter phase: each active vertex whose `scatter_edges`
returns `OUT_EDGES` signals the target of each of its out-edges; the signalled
vertices form the next round's active list.  Ranks and `last_change` are not
written (`scatter` only calls `context.signal`). -/
def scatterPhase (g : Graph) (s : EngineState) : EngineState where
  ranks := s.ranks
  lastChange := s.lastChange
  active :=
    (s.active.filter (fun u => scatter_edges (s.lastChange u) == edge_dir_type.OUT_EDGES)).flatMap
      (fun u => (g.edges.filter (fun e => e.1 == u)).map scatter)

/-- One synchronous round of the engine: gather+apply for every active
vertex, then scatter. -/
def round (g : Graph) (s : EngineState) : EngineState :=
  scatterPhase g (applyPhase g s)

/-- `gather` as the specification phrases it, as a function of exactly the
data the spec says it reads: the rank and the out-degree of the edge's
source vertex. -/
def gather_spec (rank_of_source : ℚ) (out_degree_of_source : Nat) : ℚ :=
  ((1 - RESET_PROB) / (out_degree_of_source : ℚ)) * rank_of_source

/-- Bit width of the per-vertex rank representation in the source:
`typedef float vertex_data_type;` (line 39) — IEEE-754 single precision,
32 bits. -/
def vertex_data_type_bits : Nat := 32

/-- Bit width of the `last_change` member of the `pagerank` program
(line 78): `double last_change;` — IEEE-754 double precision, 64 bits. -/
def last_change_bits : Nat := 64

/-- Outcome of the startup phase of `main` (lines 131–189), up to the point
the engine starts round 1. -/
inductive StartupResult where
  | exitFailure
  | engineStarted
deriving DecidableEq, Repr

/-- The startup phase of `main` (lines 131–189) as a function of the run
configuration.  The only early exit before the engine starts is
command-line parse failure (`if(!clopts.parse(argc, argv)) ... return
EXIT_FAILURE;`, lines 158–161); the values of the reset probability and of
the convergence threshold are never inspected by any startup check, so they
are ignored here. -/
def mainStartup (resetProb : ℚ) (threshold : ℚ) (parseOk : Bool) : StartupResult :=
  if parseOk then StartupResult.engineStarted else StartupResult.exitFailure

/-- The 3-vertex directed cycle A→B→C→A with A = 0, B = 1, C = 2. -/
def g3 : Graph where
  numVertices := 3
  edges := [(0, 1), (1, 2), (2, 0)]

/-- The engine state before round 1 on `g3`: every rank set to 1 by
`init_vertex`, every vertex active (`engine.signal_all()`), `last_change`
zero-initialised (its value before the first apply is never read). -/
def s3 : EngineState where
  ranks := fun _ => init_vertex
  lastChange := fun _ => 0
  active := [0, 1, 2]

end PageRank

namespace PageRank

/-- Helper: every edge counts itself in its source's out-degree. -/
theorem edge_source_out_degree_pos (g : Graph) (e : Nat × Nat)
    (he : e ∈ g.edges) : 0 < out_degree g e.1 := by
  unfold out_degree
  have hmem : e ∈ g.edges.filter (fun x => x.1 == e.1) :=
    List.mem_filter.mpr ⟨he, by simp⟩
  exact List.length_pos_of_mem hmem

/-- Helper: a vertex of out-degree zero is not the source of any in-edge. -/
theorem in_edge_source_ne_of_out_degree_zero (g : Graph) (u v : Nat)
    (hu : out_degree g u = 0) (e : Nat × Nat) (he : e ∈ in_edges g v) :
    e.1 ≠ u := by
  intro hequ
  have heg : e ∈ g.edges := (List.mem_filter.mp he).1
  have hpos := edge_source_out_degree_pos g e heg
  rw [hequ, hu] at hpos
  exact Nat.lt_irrefl 0 hpos

/-- Helper: the gathered sum of any vertex ignores the rank of any
out-degree-zero vertex. -/
theorem gather_sum_ext (g : Graph) (u v : Nat) (ranks ranks2 : Nat → ℚ)
    (hu : out_degree g u = 0) (hw : ∀ w, w ≠ u → ranks w = ranks2 w) :
    gather_sum g ranks v = gather_sum g ranks2 v := by
  unfold gather_sum
  congr 1
  apply List.map_congr_left
  intro e he
  have hne : e.1 ≠ u := in_edge_source_ne_of_out_degree_zero g u v hu e he
  unfold gather
  rw [hw e.1 hne]

/-- Helper: `gather` is nonnegative when the source's rank is nonnegative
(in ℚ the vacuous out-degree-zero case also divides to 0). -/
theorem gather_nonneg (g : Graph) (ranks : Nat → ℚ) (e : Nat × Nat)
    (hr : 0 ≤ ranks e.1) : 0 ≤ gather g ranks e := by
  unfold gather
  apply mul_nonneg _ hr
  apply div_nonneg
  · norm_num [RESET_PROB]
  · exact Nat.cast_nonneg _

/-- Helper: the gathered sum is nonnegative when every rank is nonnegative. -/
theorem gather_sum_nonneg (g : Graph) (ranks : Nat → ℚ) (v : Nat)
    (hr : ∀ w, 0 ≤ ranks w) : 0 ≤ gather_sum g ranks v := by
  unfold gather_sum
  apply List.sum_nonneg
  intro x hx
  obtain ⟨e, _, rfl⟩ := List.mem_map.mp hx
  exact gather_nonneg g ranks e (hr e.1)

/-- C1: for every in-edge `e` of a vertex `v`, `gather` returns
`((1 - RESET_PROB) / out_degree(e.source)) * rank(e.source)` — the value the
spec prescribes, computed from the source vertex's rank and out-degree — and
`RESET_PROB` is 0.15. -/
theorem gather_matches_spec (g : Graph) (ranks : Nat → ℚ) (v : Nat)
    (e : Nat × Nat) (he : e ∈ in_edges g v) :
    gather g ranks e = gather_spec (ranks e.1) (out_degree g e.1) ∧
      RESET_PROB = 15 / 100 :=
  ⟨rfl, rfl⟩

/-- Witness for C1 at the concrete in-edge (2, 0) of vertex 0 in the
3-cycle. -/
theorem gather_matches_spec_witness :
    gather g3 (fun _ => 1) (2, 0) = gather_spec 1 (out_degree g3 2) ∧
      RESET_PROB = 15 / 100 :=
  gather_matches_spec g3 (fun _ => 1) 0 (2, 0) (by decide)

/-- C2: `apply` computes `new_rank = gathered_sum + RESET_PROB`, sets
`last_change` to the absolute difference between the new rank and the rank
held before the update, and stores the new rank; at the engine level, an
apply invocation on vertex `v` writes exactly those two values into `v`'s
slots. -/
theorem apply_updates_rank_and_last_change (rank total : ℚ)
    (s : EngineState) (v : Nat) :
    (applyPR rank total).1 = total + RESET_PROB ∧
      (applyPR rank total).2 = |(total + RESET_PROB) - rank| ∧
      (apply_invoke s v total).ranks v = total + RESET_PROB ∧
      (apply_invoke s v total).lastChange v = |(total + RESET_PROB) - s.ranks v| := by
  refine ⟨rfl, rfl, ?_, ?_⟩ <;> simp [apply_invoke, applyPR]

/-- C3: gather never sees a zero-out-degree source: every edge's source has
out-degree at least 1 (the edge itself is one of its out-edges), a vertex of
out-degree 0 is the source of no in-edge anywhere, and changing such a
vertex's rank changes no vertex's gathered sum — it contributes nothing. -/
theorem no_zero_outdegree_source_in_gather :
    (∀ (g : Graph) (e : Nat × Nat), e ∈ g.edges → 0 < out_degree g e.1) ∧
    (∀ (g : Graph) (u v : Nat), out_degree g u = 0 →
      ∀ e ∈ in_edges g v, e.1 ≠ u) ∧
    (∀ (g : Graph) (u v : Nat) (ranks ranks2 : Nat → ℚ), out_degree g u = 0 →
      (∀ w, w ≠ u → ranks w = ranks2 w) →
      gather_sum g ranks v = gather_sum g ranks2 v) :=
  ⟨edge_source_out_degree_pos,
   fun g u v hu e he => in_edge_source_ne_of_out_degree_zero g u v hu e he,
   gather_sum_ext⟩

/-- Witness for C3: a counted edge of the 3-cycle has a positive-out-degree
source, and in the graph 0→1 the rank of the sink vertex 1 (out-degree 0)
does not affect vertex 1's own gathered sum. -/
theorem no_zero_outdegree_source_in_gather_witness :
    0 < out_degree g3 0 ∧
    gather_sum (Graph.mk 2 [(0, 1)]) (fun _ => 1) 1 =
      gather_sum (Graph.mk 2 [(0, 1)]) (fun w => if w = 1 then 99 else 1) 1 := by
  constructor
  · exact no_zero_outdegree_source_in_gather.1 g3 (0, 1) (by decide)
  · exact no_zero_outdegree_source_in_gather.2.2 (Graph.mk 2 [(0, 1)]) 1 1
      (fun _ => 1) (fun w => if w = 1 then 99 else 1) (by decide)
      (fun w hw => by simp [hw])

/-- C4: `scatter_edges` returns `OUT_EDGES` exactly when `last_change` is
strictly greater than the threshold 1e-2 and `NO_EDGES` otherwise; at the
boundary `last_change = 1e-2` it returns `NO_EDGES` (strict greater-than,
not greater-or-equal). -/
theorem scatter_edges_strict_threshold :
    (∀ lc : ℚ, scatter_edges lc = edge_dir_type.OUT_EDGES ↔
      CONVERGENCE_THRESHOLD < lc) ∧
    (∀ lc : ℚ, scatter_edges lc = edge_dir_type.NO_EDGES ↔
      ¬ CONVERGENCE_THRESHOLD < lc) ∧
    scatter_edges CONVERGENCE_THRESHOLD = edge_dir_type.NO_EDGES ∧
    CONVERGENCE_THRESHOLD = 1 / 100 := by
  refine ⟨fun lc => ?_, fun lc => ?_, ?_, rfl⟩
  · unfold scatter_edges
    split
    · next h => exact iff_of_true rfl h
    · next h => exact iff_of_false (by simp) h
  · unfold scatter_edges
    split
    · next h => exact iff_of_false (by simp) (fun hn => hn h)
    · next h => exact iff_of_true rfl h
  · unfold scatter_edges
    simp

/-- C5: on the 3-vertex directed cycle 0→1→2→0 with every rank initialised
to 1 and every vertex active, each vertex has out-degree 1, each gathered sum
is 0.85, after one synchronous round every rank is exactly 1, every
`last_change` is 0, `scatter_edges` yields `NO_EDGES` everywhere, and the
next active list is empty. -/
theorem three_cycle_round_one_fixed_point :
    out_degree g3 0 = 1 ∧ out_degree g3 1 = 1 ∧ out_degree g3 2 = 1 ∧
    gather_sum g3 s3.ranks 0 = 85 / 100 ∧
    gather_sum g3 s3.ranks 1 = 85 / 100 ∧
    gather_sum g3 s3.ranks 2 = 85 / 100 ∧
    (round g3 s3).ranks 0 = 1 ∧ (round g3 s3).ranks 1 = 1 ∧
    (round g3 s3).ranks 2 = 1 ∧
    (round g3 s3).lastChange 0 = 0 ∧ (round g3 s3).lastChange 1 = 0 ∧
    (round g3 s3).lastChange 2 = 0 ∧
    scatter_edges ((round g3 s3).lastChange 0) = edge_dir_type.NO_EDGES ∧
    scatter_edges ((round g3 s3).lastChange 1) = edge_dir_type.NO_EDGES ∧
    scatter_edges ((round g3 s3).lastChange 2) = edge_dir_type.NO_EDGES ∧
    (round g3 s3).active = [] := by
  have hg0 : gather_sum g3 s3.ranks 0 = 85 / 100 := by
    rw [gather_sum, show in_edges g3 0 = [(2, 0)] from rfl]
    simp [gather, show out_degree g3 2 = 1 from rfl, s3, init_vertex, RESET_PROB]
    norm_num
  have hg1 : gather_sum g3 s3.ranks 1 = 85 / 100 := by
    rw [gather_sum, show in_edges g3 1 = [(0, 1)] from rfl]
    simp [gather, show out_degree g3 0 = 1 from rfl, s3, init_vertex, RESET_PROB]
    norm_num
  have hg2 : gather_sum g3 s3.ranks 2 = 85 / 100 := by
    rw [gather_sum, show in_edges g3 2 = [(1, 2)] from rfl]
    simp [gather, show out_degree g3 1 = 1 from rfl, s3, init_vertex, RESET_PROB]
    norm_num
  have hr0 : (round g3 s3).ranks 0 = 1 := by
    show (if (0 : Nat) ∈ s3.active
      then (applyPR (s3.ranks 0) (gather_sum g3 s3.ranks 0)).1 else s3.ranks 0) = 1
    rw [if_pos (by decide), show (applyPR (s3.ranks 0) (gather_sum g3 s3.ranks 0)).1
      = gather_sum g3 s3.ranks 0 + RESET_PROB from rfl, hg0]
    norm_num [RESET_PROB]
  have hr1 : (round g3 s3).ranks 1 = 1 := by
    show (if (1 : Nat) ∈ s3.active
      then (applyPR (s3.ranks 1) (gather_sum g3 s3.ranks 1)).1 else s3.ranks 1) = 1
    rw [if_pos (by decide), show (applyPR (s3.ranks 1) (gather_sum g3 s3.ranks 1)).1
      = gather_sum g3 s3.ranks 1 + RESET_PROB from rfl, hg1]
    norm_num [RESET_PROB]
  have hr2 : (round g3 s3).ranks 2 = 1 := by
    show (if (2 : Nat) ∈ s3.active
      then (applyPR (s3.ranks 2) (gather_sum g3 s3.ranks 2)).1 else s3.ranks 2) = 1
    rw [if_pos (by decide), show (applyPR (s3.ranks 2) (gather_sum g3 s3.ranks 2)).1
      = gather_sum g3 s3.ranks 2 + RESET_PROB from rfl, hg2]
    norm_num [RESET_PROB]
  have hl0 : (round g3 s3).lastChange 0 = 0 := by
    show (if (0 : Nat) ∈ s3.active
      then (applyPR (s3.ranks 0) (gather_sum g3 s3.ranks 0)).2 else s3.lastChange 0) = 0
    rw [if_pos (by decide), show (applyPR (s3.ranks 0) (gather_sum g3 s3.ranks 0)).2
      = |gather_sum g3 s3.ranks 0 + RESET_PROB - s3.ranks 0| from rfl, hg0]
    norm_num [RESET_PROB, s3, init_vertex]
  have hl1 : (round g3 s3).lastChange 1 = 0 := by
    show (if (1 : Nat) ∈ s3.active
      then (applyPR (s3.ranks 1) (gather_sum g3 s3.ranks 1)).2 else s3.lastChange 1) = 0
    rw [if_pos (by decide), show (applyPR (s3.ranks 1) (gather_sum g3 s3.ranks 1)).2
      = |gather_sum g3 s3.ranks 1 + RESET_PROB - s3.ranks 1| from rfl, hg1]
    norm_num [RESET_PROB, s3, init_vertex]
  have hl2 : (round g3 s3).lastChange 2 = 0 := by
    show (if (2 : Nat) ∈ s3.active
      then (applyPR (s3.ranks 2) (gather_sum g3 s3.ranks 2)).2 else s3.lastChange 2) = 0
    rw [if_pos (by decide), show (applyPR (s3.ranks 2) (gather_sum g3 s3.ranks 2)).2
      = |gather_sum g3 s3.ranks 2 + RESET_PROB - s3.ranks 2| from rfl, hg2]
    norm_num [RESET_PROB, s3, init_vertex]
  have hse0 : scatter_edges ((round g3 s3).lastChange 0) = edge_dir_type.NO_EDGES := by
    rw [hl0]
    norm_num [scatter_edges, CONVERGENCE_THRESHOLD]
  have hse1 : scatter_edges ((round g3 s3).lastChange 1) = edge_dir_type.NO_EDGES := by
    rw [hl1]
    norm_num [scatter_edges, CONVERGENCE_THRESHOLD]
  have hse2 : scatter_edges ((round g3 s3).lastChange 2) = edge_dir_type.NO_EDGES := by
    rw [hl2]
    norm_num [scatter_edges, CONVERGENCE_THRESHOLD]
  have hact : (round g3 s3).active = [] := by
    have ha : (applyPhase g3 s3).active = [0, 1, 2] := rfl
    have q0 : scatter_edges ((applyPhase g3 s3).lastChange 0) = edge_dir_type.NO_EDGES := hse0
    have q1 : scatter_edges ((applyPhase g3 s3).lastChange 1) = edge_dir_type.NO_EDGES := hse1
    have q2 : scatter_edges ((applyPhase g3 s3).lastChange 2) = edge_dir_type.NO_EDGES := hse2
    simp [round, scatterPhase, ha, q0, q1, q2,
      show (edge_dir_type.NO_EDGES == edge_dir_type.OUT_EDGES) = false from rfl]
  exact ⟨rfl, rfl, rfl, hg0, hg1, hg2, hr0, hr1, hr2, hl0, hl1, hl2,
    hse0, hse1, hse2, hact⟩

/-- C6: ranks start at 1 (nonnegative) and every operation preserves
nonnegativity: `gather` on a counted edge of a nonnegative state is
nonnegative, `apply` on a nonnegative gathered sum produces a rank at least
`RESET_PROB` (hence nonnegative), and a whole synchronous round maps a
nonnegative rank assignment to a nonnegative one. -/
theorem rank_nonneg_invariant :
    (init_vertex = 1 ∧ 0 ≤ init_vertex) ∧
    (∀ (g : Graph) (ranks : Nat → ℚ) (e : Nat × Nat),
      e ∈ g.edges → 0 ≤ ranks e.1 → 0 ≤ gather g ranks e) ∧
    (∀ rank total : ℚ, 0 ≤ total →
      RESET_PROB ≤ (applyPR rank total).1 ∧ 0 ≤ (applyPR rank total).1) ∧
    (∀ (g : Graph) (s : EngineState), (∀ w, 0 ≤ s.ranks w) →
      ∀ v, 0 ≤ (round g s).ranks v) := by
  have hrp : (0 : ℚ) ≤ RESET_PROB := by norm_num [RESET_PROB]
  refine ⟨⟨rfl, by norm_num [init_vertex]⟩, ?_, ?_, ?_⟩
  · intro g ranks e _ hr
    exact gather_nonneg g ranks e hr
  · intro rank total ht
    constructor
    · show RESET_PROB ≤ total + RESET_PROB
      linarith
    · show (0 : ℚ) ≤ total + RESET_PROB
      linarith
  · intro g s hr v
    show 0 ≤ (if v ∈ s.active
      then (applyPR (s.ranks v) (gather_sum g s.ranks v)).1 else s.ranks v)
    split
    · have hg := gather_sum_nonneg g s.ranks v hr
      show (0 : ℚ) ≤ gather_sum g s.ranks v + RESET_PROB
      linarith
    · exact hr v

/-- Witness for C6 at concrete inputs on the 3-cycle. -/
theorem rank_nonneg_invariant_witness :
    0 ≤ gather g3 (fun _ => 1) (0, 1) ∧
    (RESET_PROB ≤ (applyPR 1 (85 / 100)).1 ∧ 0 ≤ (applyPR 1 (85 / 100)).1) ∧
    0 ≤ (round g3 s3).ranks 0 := by
  refine ⟨?_, ?_, ?_⟩
  · exact rank_nonneg_invariant.2.1 g3 (fun _ => 1) (0, 1) (by decide)
      (by norm_num)
  · exact rank_nonneg_invariant.2.2.1 1 (85 / 100) (by norm_num)
  · exact rank_nonneg_invariant.2.2.2 g3 s3
      (fun _ => by norm_num [s3, init_vertex]) 0

/-- C7 counterexample: with the reset probability 2 (outside (0,1)) and the
threshold −1 (not positive), startup with successfully parsed options still
proceeds to start the engine — `main` performs no fail-fast configuration
check, so the claim is false at this input. -/
theorem startup_no_failfast_counterexample :
    mainStartup 2 (-1) true = StartupResult.engineStarted ∧
    ¬ ((0 : ℚ) < 2 ∧ (2 : ℚ) < 1) ∧ ¬ ((0 : ℚ) < -1) := by
  refine ⟨rfl, ?_, by norm_num⟩
  intro h
  exact absurd h.2 (by norm_num)

/-- C7 amended: `main` performs no startup validation of the reset
probability or the convergence threshold — the only pre-engine exit is
command-line parse failure — and no configuration violation can arise
because both constants are hard-coded in range: `RESET_PROB = 0.15 ∈ (0,1)`
and the threshold `1e-2 > 0`. -/
theorem no_startup_config_validation :
    (0 < RESET_PROB ∧ RESET_PROB < 1) ∧ 0 < CONVERGENCE_THRESHOLD ∧
    (∀ resetProb threshold : ℚ,
      mainStartup resetProb threshold true = StartupResult.engineStarted) ∧
    (∀ resetProb threshold : ℚ,
      mainStartup resetProb threshold false = StartupResult.exitFailure) :=
  ⟨by constructor <;> norm_num [RESET_PROB],
   by norm_num [CONVERGENCE_THRESHOLD],
   fun _ _ => rfl, fun _ _ => rfl⟩

/-- C8 counterexample: the claim that both per-vertex fields are 64-bit
floats is false — the vertex data (`typedef float vertex_data_type`) is
32-bit. -/
theorem rank_not_float64_counterexample :
    ¬ (vertex_data_type_bits = 64 ∧ last_change_bits = 64) := by
  intro h
  exact absurd h.1 (by decide)

/-- C8 amended: the rank (vertex data) is a 32-bit float and only
`last_change` is a 64-bit double. -/
theorem vertex_data_is_float32 :
    vertex_data_type_bits = 32 ∧ last_change_bits = 64 := ⟨rfl, rfl⟩

/-- C9: an apply invocation on vertex `v` writes no slot of any other
vertex — ranks and `last_change` of every `u ≠ v` are unchanged, and it does
not touch the active list — and the scatter phase (which only emits signals)
changes no vertex's rank or `last_change`. -/
theorem apply_frame_and_scatter_pure :
    (∀ (s : EngineState) (v : Nat) (total : ℚ) (u : Nat), u ≠ v →
      (apply_invoke s v total).ranks u = s.ranks u ∧
      (apply_invoke s v total).lastChange u = s.lastChange u) ∧
    (∀ (g : Graph) (s : EngineState),
      (scatterPhase g s).ranks = s.ranks ∧
      (scatterPhase g s).lastChange = s.lastChange) ∧
    (∀ (s : EngineState) (v : Nat) (total : ℚ),
      (apply_invoke s v total).active = s.active) := by
  refine ⟨fun s v total u hu => ⟨?_, ?_⟩, fun g s => ⟨rfl, rfl⟩,
    fun _ _ _ => rfl⟩ <;> simp [apply_invoke, hu]

/-- Witness for C9: applying at vertex 0 of the 3-cycle leaves vertex 1's
state untouched. -/
theorem apply_frame_and_scatter_pure_witness :
    (apply_invoke s3 0 1).ranks 1 = s3.ranks 1 ∧
    (apply_invoke s3 0 1).lastChange 1 = s3.lastChange 1 :=
  apply_frame_and_scatter_pure.1 s3 0 1 1 (by decide)

/-- C10: `gather` reads only the source vertex's rank and out-degree: any
two graphs and rank assignments that agree on those two values for the
edge's source give equal gather results, whatever the rest of the state. -/
theorem gather_depends_only_on_source (g g2 : Graph)
    (ranks ranks2 : Nat → ℚ) (e : Nat × Nat)
    (hdeg : out_degree g e.1 = out_degree g2 e.1)
    (hrank : ranks e.1 = ranks2 e.1) :
    gather g ranks e = gather g2 ranks2 e := by
  unfold gather
  rw [hdeg, hrank]

/-- Witness for C10: two graphs and two rank assignments agreeing only on
vertex 2's rank and out-degree give the same gather value on (2, 0). -/
theorem gather_depends_only_on_source_witness :
    gather g3 (fun _ => 1) (2, 0) =
      gather (Graph.mk 3 [(2, 5), (0, 7)])
        (fun w => if w = 2 then 1 else 42) (2, 0) :=
  gather_depends_only_on_source g3 (Graph.mk 3 [(2, 5), (0, 7)])
    (fun _ => 1) (fun w => if w = 2 then 1 else 42) (2, 0)
    (by decide) (by norm_num)

end PageRank
